import Mathlib

/-!
Verification of the dotclaude repository: the event-logging pipeline
(redaction of sensitive keys, JSON parsing, exit-code policy) and the
configuration validation scripts (validate-config.py, setup.py).

JSON-compatible structured values are embedded as the inductive type
JValue; Python dicts become association lists with unique keys in
insertion order; Python lists become Lean lists.  JSON numbers are kept
as their raw token text: no claim here depends on numeric semantics.
-/

namespace DotClaude

/-- A JSON-compatible structured value: object, array, string, number,
boolean, or null.  Numbers keep their source text. -/
inductive JValue where
  | jnull : JValue
  | jbool : Bool → JValue
  | jnum : String → JValue
  | jstr : String → JValue
  | jarr : List JValue → JValue
  | jobj : List (String × JValue) → JValue

/-- Modelled from the spec: the Sensitive-Key Set of the Redacting Logger
(the hook logging script is not among the source files; section 3 of the
spec lists these key names). -/
def sensitiveKeys : List String :=
  ["token", "password", "secret", "authorization", "cookie", "session",
   "api_key", "access_token", "refresh_token", "key", "auth", "bearer",
   "oauth", "jwt", "private_key", "client_secret", "client_id",
   "webhook_secret", "signing_secret"]

/-- ASCII lower-casing of one character (Python str.lower restricted to
ASCII, which covers every key name involved here). -/
def lowerChar (c : Char) : Char :=
  if 65 ≤ c.toNat && c.toNat ≤ 90 then Char.ofNat (c.toNat + 32) else c

/-- ASCII lower-casing of a string, character by character. -/
def strToLower (s : String) : String :=
  String.mk (s.data.map lowerChar)

/-- Modelled from the spec: a key is sensitive when its lower-cased exact
name is in the Sensitive-Key Set (no substring matching). -/
def isSensitiveKey (k : String) : Bool :=
  sensitiveKeys.contains (strToLower k)

/-- The fixed sentinel that replaces a sensitive value. -/
def sentinel : JValue := JValue.jstr "<redacted>"

mutual
/-- Modelled from the spec: the recursive redaction algorithm of the
Redacting Logger (section 4.2).  Mappings have each sensitive-keyed value
replaced by the sentinel without recursing into it, other entries redacted
recursively; sequences are redacted element-wise preserving order and
length; every other value is returned unchanged. -/
def redact : JValue → JValue
  | JValue.jobj kvs => JValue.jobj (redactEntries kvs)
  | JValue.jarr xs => JValue.jarr (redactList xs)
  | JValue.jnull => JValue.jnull
  | JValue.jbool b => JValue.jbool b
  | JValue.jnum s => JValue.jnum s
  | JValue.jstr s => JValue.jstr s

/-- Redaction of the entries of a mapping, entry by entry. -/
def redactEntries : List (String × JValue) → List (String × JValue)
  | [] => []
  | (k, v) :: rest =>
      (k, if isSensitiveKey k then sentinel else redact v) :: redactEntries rest

/-- Redaction of the elements of a sequence, element by element. -/
def redactList : List JValue → List JValue
  | [] => []
  | v :: vs => redact v :: redactList vs
end

mutual
/-- Whether a structured value contains no sensitive key at any depth. -/
def noSensitiveKeys : JValue → Bool
  | JValue.jobj kvs => noSensitiveKeysEntries kvs
  | JValue.jarr xs => noSensitiveKeysList xs
  | _ => true

/-- noSensitiveKeys over the entries of a mapping. -/
def noSensitiveKeysEntries : List (String × JValue) → Bool
  | [] => true
  | (k, v) :: rest =>
      !isSensitiveKey k && noSensitiveKeys v && noSensitiveKeysEntries rest

/-- noSensitiveKeys over the elements of a sequence. -/
def noSensitiveKeysList : List JValue → Bool
  | [] => true
  | v :: vs => noSensitiveKeys v && noSensitiveKeysList vs
end

/-- Reading a key of a structured value: the association-list lookup when the
value is a mapping, nothing otherwise. -/
def jlookup : JValue → String → Option JValue
  | JValue.jobj kvs, k => kvs.lookup k
  | _, _ => none

/-- Whether a structured value is a mapping. -/
def jIsObj : JValue → Bool
  | JValue.jobj _ => true
  | _ => false

/-! ## JSON parsing

The scripts parse input with the json module of the Python standard
library.  That library is not part of the repository, so the parser is
embedded here as a standard recursive-descent JSON reader (RFC 8259
value grammar, the whitespace set of the json module, strings with the
escape set the module accepts, numbers kept as raw token text; duplicate
object keys are kept in order rather than collapsed to the last one). -/

/-- JSON whitespace: space, tab, line feed, carriage return. -/
def isWsChar (c : Char) : Bool :=
  c = ' ' || c = '\t' || c = '\n' || c = '\r'

/-- Drop leading JSON whitespace. -/
def skipWs : List Char → List Char
  | [] => []
  | c :: cs => if isWsChar c then skipWs cs else c :: cs

/-- Value of one hexadecimal digit. -/
def hexVal (c : Char) : Option Nat :=
  if c.isDigit then some (c.toNat - 48)
  else if 97 ≤ c.toNat && c.toNat ≤ 102 then some (c.toNat - 87)
  else if 65 ≤ c.toNat && c.toNat ≤ 70 then some (c.toNat - 55)
  else none

/-- The single-character string escapes JSON accepts. -/
def escapeChar (e : Char) : Option Char :=
  if e = '"' then some '"'
  else if e = '\\' then some '\\'
  else if e = '/' then some '/'
  else if e = 'b' then some (Char.ofNat 8)
  else if e = 'f' then some (Char.ofNat 12)
  else if e = 'n' then some '\n'
  else if e = 'r' then some '\r'
  else if e = 't' then some '\t'
  else none

/-- Body of a JSON string after its opening quote: the decoded characters
and the input after the closing quote.  Unescaped control characters are
rejected, as the Python json module rejects them. -/
def parseStringBody : List Char → Option (List Char × List Char)
  | [] => none
  | '"' :: rest => some ([], rest)
  | '\\' :: 'u' :: h1 :: h2 :: h3 :: h4 :: rest =>
      match hexVal h1, hexVal h2, hexVal h3, hexVal h4 with
      | some a, some b, some c, some d =>
          match parseStringBody rest with
          | some (s, r) => some (Char.ofNat (((a * 16 + b) * 16 + c) * 16 + d) :: s, r)
          | none => none
      | _, _, _, _ => none
  | '\\' :: e :: rest =>
      match escapeChar e with
      | none => none
      | some ch =>
          match parseStringBody rest with
          | some (s, r) => some (ch :: s, r)
          | none => none
  | c :: rest =>
      if c.toNat < 32 then none
      else
        match parseStringBody rest with
        | some (s, r) => some (c :: s, r)
        | none => none

/-- The maximal run of decimal digits at the front of the input. -/
def takeDigits : List Char → List Char × List Char
  | [] => ([], [])
  | c :: cs =>
      if c.isDigit then
        let p := takeDigits cs
        (c :: p.1, p.2)
      else ([], c :: cs)

/-- Integer part of a JSON number: 0, or a nonzero digit and more digits. -/
def parseIntPart : List Char → Option (List Char × List Char)
  | [] => none
  | c :: cs =>
      if c = '0' then some ([c], cs)
      else if c.isDigit then
        let p := takeDigits cs
        some (c :: p.1, p.2)
      else none

/-- Optional fractional part of a JSON number. -/
def parseFracPart : List Char → Option (List Char × List Char)
  | '.' :: t =>
      match takeDigits t with
      | ([], _) => none
      | (d, r) => some ('.' :: d, r)
  | cs => some ([], cs)

/-- Optional exponent part of a JSON number. -/
def parseExpPart : List Char → Option (List Char × List Char)
  | [] => some ([], [])
  | c :: t =>
      if c = 'e' || c = 'E' then
        let sgn : List Char × List Char :=
          match t with
          | s :: t2 => if s = '+' || s = '-' then ([s], t2) else ([], s :: t2)
          | [] => ([], [])
        match takeDigits sgn.2 with
        | ([], _) => none
        | (d, r) => some (c :: (sgn.1 ++ d), r)
      else some ([], c :: t)

/-- A JSON number token: its raw characters and the rest of the input. -/
def parseNumber (cs : List Char) : Option (List Char × List Char) :=
  let negp : List Char × List Char :=
    match cs with
    | '-' :: t => (['-'], t)
    | _ => ([], cs)
  match parseIntPart negp.2 with
  | none => none
  | some (ip, r1) =>
      match parseFracPart r1 with
      | none => none
      | some (fp, r2) =>
          match parseExpPart r2 with
          | none => none
          | some (ep, r3) => some (negp.1 ++ ip ++ fp ++ ep, r3)

mutual
/-- One JSON value at the front of the input (leading whitespace already
skipped): the value and the rest of the input.  The fuel argument bounds
the recursion depth and is chosen large enough in parseJson that it is
never exhausted on input the grammar accepts. -/
def parseValueF : Nat → List Char → Option (JValue × List Char)
  | 0, _ => none
  | _ + 1, [] => none
  | fuel + 1, c :: cs =>
      if c = '"' then
        match parseStringBody cs with
        | some (s, rest) => some (JValue.jstr (String.mk s), rest)
        | none => none
      else if c = '{' then
        match skipWs cs with
        | '}' :: rest => some (JValue.jobj [], rest)
        | cs2 => parseMembersF fuel cs2 []
      else if c = '[' then
        match skipWs cs with
        | ']' :: rest => some (JValue.jarr [], rest)
        | cs2 => parseElemsF fuel cs2 []
      else
        match c :: cs with
        | 'n' :: 'u' :: 'l' :: 'l' :: rest => some (JValue.jnull, rest)
        | 't' :: 'r' :: 'u' :: 'e' :: rest => some (JValue.jbool true, rest)
        | 'f' :: 'a' :: 'l' :: 's' :: 'e' :: rest => some (JValue.jbool false, rest)
        | l =>
            if c = '-' || c.isDigit then
              match parseNumber l with
              | some (tok, rest) => some (JValue.jnum (String.mk tok), rest)
              | none => none
            else none

/-- The members of a JSON object after its opening brace (whitespace
skipped, at least one member present). -/
def parseMembersF : Nat → List Char → List (String × JValue) →
    Option (JValue × List Char)
  | 0, _, _ => none
  | _ + 1, [], _ => none
  | fuel + 1, c :: cs, acc =>
      if c = '"' then
        match parseStringBody cs with
        | none => none
        | some (key, cs2) =>
            match skipWs cs2 with
            | ':' :: cs3 =>
                match parseValueF fuel (skipWs cs3) with
                | none => none
                | some (v, cs4) =>
                    match skipWs cs4 with
                    | ',' :: cs5 => parseMembersF fuel (skipWs cs5) (acc ++ [(String.mk key, v)])
                    | '}' :: cs5 => some (JValue.jobj (acc ++ [(String.mk key, v)]), cs5)
                    | _ => none
            | _ => none
      else none

/-- The elements of a JSON array after its opening bracket (whitespace
skipped, at least one element present). -/
def parseElemsF : Nat → List Char → List JValue → Option (JValue × List Char)
  | 0, _, _ => none
  | fuel + 1, cs, acc =>
      match parseValueF fuel cs with
      | none => none
      | some (v, cs2) =>
          match skipWs cs2 with
          | ',' :: cs3 => parseElemsF fuel (skipWs cs3) (acc ++ [v])
          | ']' :: cs3 => some (JValue.jarr (acc ++ [v]), cs3)
          | _ => none
end

/-- Parse one complete JSON document: one value, surrounded only by
whitespace.  Empty input has no value and fails, trailing data fails. -/
def parseJson (s : String) : Option JValue :=
  match parseValueF (2 * s.data.length + 4) (skipWs s.data) with
  | some (v, rest) => if skipWs rest = [] then some v else none
  | none => none

/-! ## The hook logging process -/

/-- Outcome of the logging attempt of one invocation: the locked append
succeeded, or one of the failure classes of the error taxonomy. -/
inductive LogAttempt where
  | success : LogAttempt
  | dirCreationError : LogAttempt
  | lockError : LogAttempt
  | writeError : LogAttempt
  | serializationError : LogAttempt

/-- What one invocation of the hook process leaves behind: its exit status
and the record its logging attempt appended (none when nothing was
written). -/
structure HookOutcome where
  exitStatus : Nat
  appendedLine : Option JValue

/-- Modelled from the spec: the per-invocation control flow of the hook
logging script (.claude/hooks/log-hooks.py, which is not among the source
files).  The Event Reader parses standard input as one JSON document; on
parse failure the process exits non-zero without invoking the Redacting
Logger; on parse success the redacted record is appended (when the logging
attempt succeeds) and the process exits 0, logging failures being reported
but never changing the exit status (spec sections 4.1, 6 and 7). -/
def hookRun (input : String) (attempt : LogAttempt) : HookOutcome :=
  match parseJson input with
  | none => { exitStatus := 1, appendedLine := none }
  | some v =>
      { exitStatus := 0
        appendedLine :=
          match attempt with
          | LogAttempt.success => some (redact v)
          | _ => none }

/-! ## validate-config.py -/

/-- What opening and reading the file gives the validator: its text, a
FileNotFoundError, or any other exception (each caught by
validate_json_file). -/
inductive ReadResult where
  | content : String → ReadResult
  | fileNotFound : ReadResult
  | otherError : String → ReadResult

/-- The dictionary validate_json_file returns: the key valid, the key data
(present exactly on success) and the key error (present exactly on
failure). -/
structure VFileResult where
  valid : Bool
  data : Option JValue
  error : Option String

/-- Embedding of validate_json_file (src/validate-config.py): parse the
file as JSON and return valid/data on success; on a JSON parse error, a
missing file or any other exception return valid=False with an error
string.  The text of the parse-error message is abstracted to its fixed
prefix. -/
def validate_json_file (r : ReadResult) : VFileResult :=
  match r with
  | ReadResult.content s =>
      match parseJson s with
      | some d => { valid := true, data := some d, error := none }
      | none => { valid := false, data := none, error := some "JSON parse error" }
  | ReadResult.fileNotFound =>
      { valid := false, data := none, error := some "File not found" }
  | ReadResult.otherError e =>
      { valid := false, data := none, error := some ("Unexpected error: " ++ e) }

/-- Whether the first list occurs contiguously at the front of the second. -/
def startsWithChars : List Char → List Char → Bool
  | [], _ => true
  | _ :: _, [] => false
  | a :: as, b :: bs => a = b && startsWithChars as bs

/-- Whether the first list occurs contiguously anywhere in the second
(the Python in operator on strings). -/
def containsChars (needle : List Char) : List Char → Bool
  | [] => startsWithChars needle []
  | c :: rest => startsWithChars needle (c :: rest) || containsChars needle rest

/-- The placeholder test of validate_mcp_config: the lower-cased value
contains get-this-from or your_ as a substring. -/
def hasPlaceholder (s : String) : Bool :=
  let ls := s.data.map lowerChar
  containsChars "get-this-from".data ls || containsChars "your_".data ls

/-- Placeholder issues over the entries of an env or headers mapping, in
entry order; kind is the wording of the message (env var or header). -/
def placeholderIssues (serverName kind : String) :
    List (String × JValue) → List String
  | [] => []
  | (k, v) :: rest =>
      (match v with
       | JValue.jstr s =>
           if hasPlaceholder s then
             ["Server '" ++ serverName ++ "' has placeholder value for " ++ kind
               ++ " '" ++ k ++ "': " ++ s]
           else []
       | _ => []) ++ placeholderIssues serverName kind rest

/-- The valid server types of validate_mcp_config. -/
def validTypes : List String := ["stdio", "sse", "http"]

/-- The type-field check of validate_mcp_config for one server.  The
rendering of a non-string type value inside the message is abstracted. -/
def typeFieldIssues (serverName : String) (config : List (String × JValue)) :
    List String :=
  match config.lookup "type" with
  | none => ["Server '" ++ serverName ++ "' missing 'type' field"]
  | some (JValue.jstr ts) =>
      if validTypes.contains ts then []
      else
        ["Server '" ++ serverName ++ "' has invalid type '" ++ ts
          ++ "'. Must be one of: ['stdio', 'sse', 'http']"]
  | some _ =>
      ["Server '" ++ serverName
        ++ "' has invalid type '<non-string>'. Must be one of: ['stdio', 'sse', 'http']"]

/-- The type-specific required-field check of validate_mcp_config for one
server: stdio needs command, sse and http need url. -/
def typeSpecificIssues (serverName : String) (config : List (String × JValue)) :
    List String :=
  match config.lookup "type" with
  | some (JValue.jstr "stdio") =>
      match config.lookup "command" with
      | none => ["Server '" ++ serverName ++ "' (stdio) missing 'command' field"]
      | some _ => []
  | some (JValue.jstr "sse") =>
      match config.lookup "url" with
      | none => ["Server '" ++ serverName ++ "' (sse) missing 'url' field"]
      | some _ => []
  | some (JValue.jstr "http") =>
      match config.lookup "url" with
      | none => ["Server '" ++ serverName ++ "' (http) missing 'url' field"]
      | some _ => []
  | _ => []

/-- The env placeholder check of validate_mcp_config for one server. -/
def envIssues (serverName : String) (config : List (String × JValue)) :
    List String :=
  match config.lookup "env" with
  | some (JValue.jobj entries) => placeholderIssues serverName "env var" entries
  | _ => []

/-- The headers placeholder check of validate_mcp_config for one server. -/
def headerIssues (serverName : String) (config : List (String × JValue)) :
    List String :=
  match config.lookup "headers" with
  | some (JValue.jobj entries) => placeholderIssues serverName "header" entries
  | _ => []

/-- All checks of validate_mcp_config for one server, in source order; a
non-mapping config yields its single issue and nothing else. -/
def serverIssues (serverName : String) (config : JValue) : List String :=
  match config with
  | JValue.jobj c =>
      typeFieldIssues serverName c ++ typeSpecificIssues serverName c
        ++ envIssues serverName c ++ headerIssues serverName c
  | _ => ["Server '" ++ serverName ++ "' config must be an object"]

/-- The per-server loop of validate_mcp_config, in insertion order. -/
def serversIssues : List (String × JValue) → List String
  | [] => []
  | (name, config) :: rest => serverIssues name config ++ serversIssues rest

/-- Embedding of validate_mcp_config (src/validate-config.py): a missing
mcpServers key or a non-mapping mcpServers value each return their single
issue before any per-server validation; otherwise every server is
checked. -/
def validate_mcp_config (data : List (String × JValue)) : List String :=
  match data.lookup "mcpServers" with
  | none => ["Missing 'mcpServers' key in root object"]
  | some (JValue.jobj servers) => serversIssues servers
  | some _ => ["'mcpServers' must be an object"]

/-- The directories create_directory_structure (src/setup.py) creates. -/
def setupDirectories : List (List String) :=
  [[".claude", "hooks", "logs"], [".claude", "cache"], [".claude", "tmp"],
   [".claude", "agents"], [".claude", "commands"]]

/-- The nonempty prefixes of a path: the path and all its ancestors. -/
def nePrefixes : List String → List (List String)
  | [] => []
  | s :: rest => [s] :: (nePrefixes rest).map (fun q => s :: q)

/-- Path.mkdir with parents=True and exist_ok=True: afterwards the path and
every ancestor exist; nothing else changes. -/
def mkdirParents (fs : List String → Bool) (p : List String) :
    List String → Bool :=
  fun q => fs q || (nePrefixes p).contains q

/-- One iteration of the loop of create_directory_structure: an existing
path is only reported, a missing one is created with its parents. -/
def createDir (fs : List String → Bool) (p : List String) :
    List String → Bool :=
  if fs p then fs else mkdirParents fs p

/-- Embedding of create_directory_structure (src/setup.py): the loop over
the five required directories. -/
def create_directory_structure (fs : List String → Bool) :
    List String → Bool :=
  setupDirectories.foldl createDir fs

/-! ## Lemmas about redaction -/

theorem redactEntries_lookup (kvs : List (String × JValue)) (K : String) :
    (redactEntries kvs).lookup K =
      (kvs.lookup K).map
        (fun v => if isSensitiveKey K = true then sentinel else redact v) := by
  induction kvs with
  | nil => simp [redactEntries]
  | cons hd tl ih =>
      obtain ⟨k, v⟩ := hd
      by_cases hKk : (K == k) = true
      · have hKeq : K = k := eq_of_beq hKk
        subst hKeq
        by_cases hsk : isSensitiveKey K
        · simp [redactEntries, hsk, List.lookup]
        · simp [redactEntries, hsk, List.lookup]
      · by_cases hsk : isSensitiveKey k
        · simp [redactEntries, hsk, List.lookup, hKk, ih]
        · simp [redactEntries, hsk, List.lookup, hKk, ih]

mutual
theorem redactIdemVal : ∀ v : JValue, redact (redact v) = redact v
  | JValue.jnull => by simp [redact]
  | JValue.jbool b => by simp [redact]
  | JValue.jnum s => by simp [redact]
  | JValue.jstr s => by simp [redact]
  | JValue.jarr xs => by simp [redact, redactIdemList xs]
  | JValue.jobj kvs => by simp [redact, redactIdemEntries kvs]

theorem redactIdemEntries :
    ∀ kvs : List (String × JValue), redactEntries (redactEntries kvs) = redactEntries kvs
  | [] => by simp [redactEntries]
  | (k, v) :: rest => by
      by_cases hk : isSensitiveKey k
      · simp [redactEntries, hk, sentinel, redactIdemEntries rest]
      · simp [redactEntries, hk, redactIdemVal v, redactIdemEntries rest]

theorem redactIdemList :
    ∀ xs : List JValue, redactList (redactList xs) = redactList xs
  | [] => by simp [redactList]
  | x :: rest => by simp [redactList, redactIdemVal x, redactIdemList rest]
end

mutual
theorem redactNoSens : ∀ v : JValue, noSensitiveKeys v = true → redact v = v
  | JValue.jnull, _ => by simp [redact]
  | JValue.jbool b, _ => by simp [redact]
  | JValue.jnum s, _ => by simp [redact]
  | JValue.jstr s, _ => by simp [redact]
  | JValue.jarr xs, h => by
      simp only [noSensitiveKeys] at h
      simp [redact, redactNoSensList xs h]
  | JValue.jobj kvs, h => by
      simp only [noSensitiveKeys] at h
      simp [redact, redactNoSensEntries kvs h]

theorem redactNoSensEntries :
    ∀ kvs : List (String × JValue),
      noSensitiveKeysEntries kvs = true → redactEntries kvs = kvs
  | [], _ => by simp [redactEntries]
  | (k, v) :: rest, h => by
      simp only [noSensitiveKeysEntries, Bool.and_eq_true, Bool.not_eq_true'] at h
      simp [redactEntries, h.1.1, redactNoSens v h.1.2, redactNoSensEntries rest h.2]

theorem redactNoSensList :
    ∀ xs : List JValue, noSensitiveKeysList xs = true → redactList xs = xs
  | [], _ => by simp [redactList]
  | x :: rest, h => by
      simp only [noSensitiveKeysList, Bool.and_eq_true] at h
      simp [redactList, redactNoSens x h.1, redactNoSensList rest h.2]
end

theorem redactList_eq_map (xs : List JValue) :
    redactList xs = xs.map redact := by
  induction xs with
  | nil => simp [redactList]
  | cons x rest ih => simp [redactList, ih]

theorem redactList_length (xs : List JValue) :
    (redactList xs).length = xs.length := by
  rw [redactList_eq_map, List.length_map]

/-! ## Claim theorems -/

/-- C1: for every mapping and every key whose lower-cased name is in the
Sensitive-Key Set, redaction replaces the value stored under that key with
the fixed sentinel string, regardless of the type or nesting of the
original value, and does not recurse into that value. -/
theorem redact_sensitive_key (kvs : List (String × JValue)) (K : String)
    (V : JValue) (hs : isSensitiveKey K = true) (hm : kvs.lookup K = some V) :
    jlookup (redact (JValue.jobj kvs)) K = some sentinel := by
  simp only [redact, jlookup]
  rw [redactEntries_lookup, hm]
  simp [hs]

/-- Witness for C1: a sensitive key (upper-cased, with a nested mapping as
value) is mapped to the sentinel. -/
theorem redact_sensitive_key_witness :
    jlookup (redact (JValue.jobj
      [("Token", JValue.jobj [("inner", JValue.jstr "x")])])) "Token"
      = some sentinel :=
  redact_sensitive_key _ "Token" (JValue.jobj [("inner", JValue.jstr "x")])
    (by decide) rfl

/-- C2 counterexample: the key list is not sensitive, yet redaction does
not preserve the value stored under it unchanged, because a sensitive key
occurs deeper inside that value (this is the behaviour the spec itself
shows in its sequence example). -/
theorem redact_nonsensitive_counterexample :
    isSensitiveKey "list" = false ∧
    jlookup (redact (JValue.jobj
        [("list", JValue.jarr [JValue.jobj [("secret", JValue.jstr "a")]])])) "list"
      ≠ jlookup (JValue.jobj
        [("list", JValue.jarr [JValue.jobj [("secret", JValue.jstr "a")]])]) "list" := by
  refine ⟨by decide, ?_⟩
  have h1 : jlookup (redact (JValue.jobj
      [("list", JValue.jarr [JValue.jobj [("secret", JValue.jstr "a")]])])) "list"
      = some (JValue.jarr [JValue.jobj [("secret", sentinel)]]) := by
    simp [redact, redactEntries, redactList, jlookup, List.lookup,
      show isSensitiveKey "list" = false from by decide,
      show isSensitiveKey "secret" = true from by decide]
  rw [h1]
  simp [jlookup, List.lookup, sentinel]

/-- C2 (amended): for every mapping and every key K not in the
Sensitive-Key Set, redaction keeps the entry under K, never replacing it
with the sentinel, and maps its value to its redacted form; a value that
contains no sensitive key at any nesting depth is preserved unchanged; and
a sequence is redacted element by element in order (element i of the
result is the redacted element i of the original), so its order and length
are preserved. -/
theorem redact_nonsensitive_key (kvs : List (String × JValue)) (K : String)
    (hs : isSensitiveKey K = false) :
    jlookup (redact (JValue.jobj kvs)) K = (kvs.lookup K).map redact ∧
    (∀ v, noSensitiveKeys v = true → redact v = v) ∧
    (∀ xs, redactList xs = xs.map redact) ∧
    (∀ xs, (redactList xs).length = xs.length) := by
  refine ⟨?_, redactNoSens, redactList_eq_map, redactList_length⟩
  simp only [redact, jlookup]
  rw [redactEntries_lookup]
  simp [hs]

/-- Witness for C2 (amended) at a concrete mapping with a non-sensitive
key. -/
theorem redact_nonsensitive_key_witness :
    jlookup (redact (JValue.jobj [("ok", JValue.jstr "b")])) "ok"
        = (([("ok", JValue.jstr "b")] : List (String × JValue)).lookup "ok").map redact ∧
      (∀ v, noSensitiveKeys v = true → redact v = v) ∧
      (∀ xs, redactList xs = xs.map redact) ∧
      (∀ xs, (redactList xs).length = xs.length) :=
  redact_nonsensitive_key [("ok", JValue.jstr "b")] "ok" (by decide)

/-- C3: redaction is idempotent: redacting a value twice gives the same
result as redacting it once. -/
theorem redact_idempotent (v : JValue) : redact (redact v) = redact v :=
  redactIdemVal v

/-- C4: the exit status of the hook process is 0 exactly when the input
was valid JSON, and non-zero exactly when the input could not be parsed as
JSON; the outcome of the logging attempt never changes the exit status,
and nothing is appended when parsing failed. -/
theorem hook_exit_status (input : String) (a b : LogAttempt) :
    ((hookRun input a).exitStatus = 0 ↔ (parseJson input).isSome = true) ∧
    ((hookRun input a).exitStatus ≠ 0 ↔ parseJson input = none) ∧
    (hookRun input a).exitStatus = (hookRun input b).exitStatus ∧
    (parseJson input = none → (hookRun input a).appendedLine = none) := by
  cases h : parseJson input <;> simp [hookRun, h]

/-- C6: empty input is a JSON parse failure, not a no-op success: parsing
the empty document yields no value, and validate_json_file classifies an
empty file as invalid with a parse error. -/
theorem empty_input_parse_failure :
    parseJson "" = none ∧
    (validate_json_file (ReadResult.content "")).valid = false ∧
    (validate_json_file (ReadResult.content "")).error = some "JSON parse error" :=
  ⟨rfl, rfl, rfl⟩

/-- C8: validate_json_file is total over its error paths: the result always
carries valid, with data present exactly when valid is true and an error
string present exactly when valid is false. -/
theorem validate_json_file_total (r : ReadResult) :
    (validate_json_file r).data.isSome = (validate_json_file r).valid ∧
    (validate_json_file r).error.isSome = !(validate_json_file r).valid := by
  cases r with
  | content s => cases h : parseJson s <;> simp [validate_json_file, h]
  | fileNotFound => simp [validate_json_file]
  | otherError e => simp [validate_json_file]

/-- C9: when the mcpServers key is absent, or present with a non-mapping
value, validate_mcp_config returns exactly one issue and performs no
per-server validation. -/
theorem validate_mcp_config_early_return (data : List (String × JValue)) :
    (data.lookup "mcpServers" = none →
      validate_mcp_config data = ["Missing 'mcpServers' key in root object"]) ∧
    (∀ v, data.lookup "mcpServers" = some v → jIsObj v = false →
      validate_mcp_config data = ["'mcpServers' must be an object"]) := by
  constructor
  · intro h
    simp [validate_mcp_config, h]
  · intro v hv hobj
    cases v <;> simp [jIsObj] at hobj <;> simp [validate_mcp_config, hv]

theorem createDir_preserves (fs : List String → Bool) (p q : List String)
    (h : fs q = true) : createDir fs p q = true := by
  unfold createDir
  split
  · exact h
  · simp [mkdirParents, h]

theorem foldl_createDir_preserves (l : List (List String))
    (fs : List String → Bool) (q : List String) (h : fs q = true) :
    (l.foldl createDir fs) q = true := by
  induction l generalizing fs with
  | nil => exact h
  | cons p rest ih => exact ih _ (createDir_preserves fs p q h)

theorem self_mem_nePrefixes (p : List String) (h : p ≠ []) :
    p ∈ nePrefixes p := by
  induction p with
  | nil => exact absurd rfl h
  | cons s rest ih =>
      cases rest with
      | nil => simp [nePrefixes]
      | cons t ts =>
          simp only [nePrefixes, List.mem_cons]
          exact Or.inr (List.mem_map.mpr ⟨t :: ts, ih (by simp), rfl⟩)

theorem createDir_self (fs : List String → Bool) (p : List String)
    (h : p ≠ []) : createDir fs p p = true := by
  unfold createDir
  split
  · assumption
  · simp [mkdirParents]
    exact Or.inr (self_mem_nePrefixes p h)

theorem foldl_createDir_mem (l : List (List String)) (fs : List String → Bool)
    (d : List String) (hd : d ∈ l) (hne : d ≠ []) :
    (l.foldl createDir fs) d = true := by
  induction l generalizing fs with
  | nil => cases hd
  | cons p rest ih =>
      rcases List.mem_cons.mp hd with rfl | hd2
      · exact foldl_createDir_preserves rest _ d (createDir_self fs d hne)
      · exact ih (createDir fs p) hd2

theorem foldl_createDir_noop (l : List (List String)) (fs : List String → Bool)
    (h : ∀ d ∈ l, fs d = true) : l.foldl createDir fs = fs := by
  induction l with
  | nil => rfl
  | cons p rest ih =>
      have hp : createDir fs p = fs := by
        unfold createDir
        rw [if_pos (h p (List.mem_cons_self p rest))]
      rw [List.foldl_cons, hp, ih (fun d hd => h d (List.mem_cons_of_mem p hd))]

/-- C7: creating the directory structure is idempotent: one run makes
every required directory exist (starting from nothing, also all parents of
the nested log directory), and a second run over the resulting state
changes nothing, each directory taking the already-exists branch instead
of being re-created. -/
theorem create_directory_structure_idempotent (fs : List String → Bool) :
    (∀ d ∈ setupDirectories, create_directory_structure fs d = true) ∧
    (∀ q ∈ nePrefixes [".claude", "hooks", "logs"],
      create_directory_structure (fun _ => false) q = true) ∧
    create_directory_structure (create_directory_structure fs)
      = create_directory_structure fs := by
  have hne : ∀ d ∈ setupDirectories, d ≠ [] := by decide
  refine ⟨?_, by decide, ?_⟩
  · intro d hd
    exact foldl_createDir_mem _ fs d hd (hne d hd)
  · exact foldl_createDir_noop _ _
      (fun d hd => foldl_createDir_mem _ fs d hd (hne d hd))

end DotClaude
